/-
Verification of the dashboard-tsdata-bridge query-federation layer.

The development shallowly embeds the Go sources:
  * `pkg/components/loki/lokihttp/types.go` — the Loki dispatch engine
    (`queryData`, `executeQuery`, `runQuery`, `parseQueryModel`,
    `callResource`);
  * `pkg/services/query/model.go` — request validation
    (`validateRequest`, `splitHeaders`);
  * `pkg/infra/httpclient/httpclientprovider/response_limit_middleware.go` —
    `ResponseLimitMiddleware`.

External collaborators (the Loki HTTP API, JSON decoding, frame
adjustment) are passed in as explicit function parameters, so theorems
quantify over every possible behaviour of those collaborators.
-/
import Mathlib

set_option autoImplicit false

namespace Loki

/-- Frames are the backend-native response payload.  The dispatch code never
inspects a frame, so they are modelled as an opaque datum. -/
abbrev Frame := String

abbrev Frames := List Frame

/-- The parsed form of one sub-query (`lokiQuery` in the Go source; its full
definition lives in `parse.go`, outside the provided sources).  The dispatch
engine reads only the `RefID` field; the rest of the query is carried opaquely
as `expr`. -/
structure LokiQuery where
  refID : String
  expr : String
deriving Repr, DecidableEq

/-- `backend.DataResponse`: either frames (success) or an error, as filled in
by `executeQuery`.  The Go zero value has `Frames = nil` and `Error = nil`. -/
structure DataResponse where
  frames : Frames
  error? : Option String
deriving Repr, DecidableEq

/-- `result.Responses` is a Go map from RefID to `DataResponse`.  It is
modelled as an association list; `setResponse` has Go-map insertion semantics
(overwrite on an existing key, append otherwise) and `getResponse` is lookup.
Go map equality is key/value equality, which for association lists with
distinct keys is captured by permutation or pointwise `getResponse`. -/
abbrev Responses := List (String × DataResponse)

/-- Go-map insert: `m[k] = v`. -/
def setResponse (m : Responses) (k : String) (v : DataResponse) : Responses :=
  if m.any (fun p => p.1 == k) then
    m.map (fun p => if p.1 == k then (k, v) else p)
  else
    m ++ [(k, v)]

/-- Go-map read: `m[k]`. -/
def getResponse (m : Responses) (k : String) : Option DataResponse :=
  (m.find? (fun p => p.1 == k)).map Prod.snd

/-- `ResponseOpts` from `types.go`. -/
structure ResponseOpts where
  metricDataplane : Bool
  logsDataplane : Bool
deriving Repr, DecidableEq

/-- The behaviour of the external collaborators of `runQuery`:
`dataQuery` is `api.DataQuery` (the Loki HTTP client) and `adjustFrame`
is the frame adjuster (`frame_adjust.go`, outside the provided sources, is
applied to each frame and may fail).  `adjustFrame` receives the same extra
arguments as in the source: the query, `!metricDataplane`, `logsDataplane`. -/
structure Backend where
  dataQuery : LokiQuery → Except String Frames
  adjustFrame : Frame → LokiQuery → Bool → Bool → Except String Frame

/-- The loop body of `runQuery`: adjust each frame in order; the first
adjustment error aborts with that error (the Go code then discards the
already-adjusted elements and returns an empty `data.Frames`). -/
def adjustFrames (b : Backend) (query : LokiQuery) (opts : ResponseOpts) :
    Frames → Except String Frames
  | [] => Except.ok []
  | f :: fs =>
    match b.adjustFrame f query (!opts.metricDataplane) opts.logsDataplane with
    | Except.error e => Except.error e
    | Except.ok f2 =>
      match adjustFrames b query opts fs with
      | Except.error e => Except.error e
      | Except.ok fs2 => Except.ok (f2 :: fs2)

/-- `runQuery` from `types.go`: call the backend, then adjust every frame;
any error (transport or adjustment) is returned with empty frames. -/
def runQuery (b : Backend) (query : LokiQuery) (opts : ResponseOpts) :
    Except String Frames :=
  match b.dataQuery query with
  | Except.error e => Except.error e
  | Except.ok frames => adjustFrames b query opts frames

/-- `executeQuery` from `types.go`: wrap `runQuery`'s outcome into a
`DataResponse`; an error becomes `queryRes.Error`, success becomes
`queryRes.Frames`. -/
def executeQuery (b : Backend) (query : LokiQuery) (opts : ResponseOpts) :
    DataResponse :=
  match runQuery b query opts with
  | Except.error e => { frames := [], error? := some e }
  | Except.ok fs => { frames := fs, error? := none }

/-- One raw sub-query of the incoming `backend.QueryDataRequest`: a RefID and
an opaque JSON payload. -/
structure RawQuery where
  refID : String
  json : String
deriving Repr, DecidableEq

/-- The incoming `backend.QueryDataRequest`, reduced to the parts the
dispatch engine reads. -/
structure QueryDataRequest where
  queries : List RawQuery
deriving Repr, DecidableEq

/-- `parseQueryModel` from `types.go`: unmarshal the raw JSON payload into a
query model.  `json.Unmarshal` is an external collaborator, passed in as the
`unmarshal` parameter; the decoded model is carried opaquely as a `String`. -/
def parseQueryModel (unmarshal : String → Except String String)
    (raw : String) : Except String String :=
  unmarshal raw

/-- Modelled from the spec: `parseQuery` lives in `parse.go`, which is not
among the provided sources; only its call site in `queryData` is visible
(`queries, err := parseQuery(req)` followed by `if err != nil { return result,
err }`).  Per the spec's Query Parser contract, each sub-query's payload is
decoded independently against its schema and a payload that cannot be decoded
yields a `MalformedQuery` error; the call-site signature forces `parseQuery`
to return either one list of parsed queries or one error, so the first decode
failure is returned as that error.  Each parsed query keeps its sub-query's
RefID. -/
def parseQueries (unmarshal : String → Except String String) :
    List RawQuery → Except String (List LokiQuery)
  | [] => Except.ok []
  | rq :: rest =>
    match parseQueryModel unmarshal rq.json with
    | Except.error e => Except.error e
    | Except.ok m =>
      match parseQueries unmarshal rest with
      | Except.error e => Except.error e
      | Except.ok qs => Except.ok ({ refID := rq.refID, expr := m } :: qs)

/-- The `parseQuery` entry point takes the whole request. -/
def parseQuery (unmarshal : String → Except String String)
    (req : QueryDataRequest) : Except String (List LokiQuery) :=
  parseQueries unmarshal req.queries

/-- The scheduling behaviour of `concurrency.ForEachJob` (dskit), which
`queryData` uses in parallel mode with at most 10 workers.  `order` lists the
job indices whose callback actually ran, in the order in which their
result-map inserts took the lock; `ctxErr` is the context error `ForEachJob`
returns when the shared context is cancelled (`none` when it is not).  When
the context is never cancelled every job runs, i.e. `order` is a permutation
of all indices; a cancelled context makes the remaining callbacks never
run. -/
structure Schedule where
  order : List Nat
  ctxErr : Option String
deriving Repr, DecidableEq

/-- A schedule that can arise for `n` jobs: no job runs twice, only real
indices run, and if the context was never cancelled then every job ran. -/
def Schedule.valid (s : Schedule) (n : Nat) : Prop :=
  s.order.Nodup ∧ (∀ i ∈ s.order, i < n) ∧
    (s.ctxErr = none → ∀ i, i < n → i ∈ s.order)

/-- The queries whose job callbacks ran, in lock-acquisition order. -/
def Schedule.executed (s : Schedule) (queries : List LokiQuery) :
    List LokiQuery :=
  s.order.filterMap (fun i => queries[i]?)

/-- `queryData` from `types.go`.  After parsing (a parse error returns the
empty response map together with that error), either mode computes
`executeQuery` for each query and stores the result under the query's RefID:
sequential mode iterates the parsed queries in order; parallel mode runs the
per-index callback through `concurrency.ForEachJob` (each callback returns
`nil`, so the error `queryData` returns alongside the map is `ForEachJob`'s
own result — the context error when cancelled, `nil` otherwise). -/
def queryData (b : Backend) (unmarshal : String → Except String String)
    (req : QueryDataRequest) (opts : ResponseOpts)
    (runInParallel : Bool) (sched : Schedule) : Responses × Option String :=
  match parseQuery unmarshal req with
  | Except.error e => ([], some e)
  | Except.ok queries =>
    if runInParallel then
      ((sched.executed queries).foldl
        (fun m q => setResponse m q.refID (executeQuery b q opts)) [],
       sched.ctxErr)
    else
      (queries.foldl
        (fun m q => setResponse m q.refID (executeQuery b q opts)) [],
       none)

/-- `backend.CallResourceRequest`, reduced to the fields `callResource`
reads. -/
structure CallResourceRequest where
  method : String
  url : String
deriving Repr, DecidableEq

/-- `RawLokiResponse` (returned by `LokiAPI.RawQuery`; its type lives in
`api.go`, outside the provided sources).  Modelled from the spec: the
passthrough "streams back status, headers (content-type, content-encoding),
and body", so the raw response carries a status, a body, and the encoding
used for the content-encoding header. -/
structure RawLokiResponse where
  status : Nat
  body : String
  encoding : String
deriving Repr, DecidableEq

/-- `backend.CallResourceResponse` as sent by `callResource`. -/
structure CallResourceResponse where
  status : Nat
  headers : List (String × List String)
  body : String
deriving Repr, DecidableEq

/-- The outcome of `callResource`: either the function returned an error to
its caller, or it sent one response through the response sender. -/
inductive ResourceOutcome where
  | failed (msg : String)
  | sent (resp : CallResourceResponse)
deriving Repr, DecidableEq

/-- Go's `strings.HasPrefix`, modelled on the character lists of the two
strings so that it evaluates inside the kernel. -/
def hasPrefixChars (s pre : String) : Bool :=
  pre.data.isPrefixOf s.data

/-- The URL check of `callResource`: the Go code rejects unless the URL
starts with one of the four allow-listed forms. -/
def urlAllowed (url : String) : Bool :=
  hasPrefixChars url "labels?" || hasPrefixChars url "label/" ||
    hasPrefixChars url "series?" || hasPrefixChars url "index/stats?"

/-- `callResource` from `types.go`.  Reject non-GET methods, then reject
URLs outside the allow list; only then is the Loki API handle built and
`RawQuery` issued (modelled by the `rawQuery` parameter) on
`/loki/api/v1/<url>`.  A `RawQuery` error is returned as-is; on success the
response is sent with the backend's status and body, a content-type header
fixed to `application/json`, and a content-encoding header exactly when the
backend reported a non-empty encoding. -/
def callResource (rawQuery : String → Except String RawLokiResponse)
    (req : CallResourceRequest) : ResourceOutcome :=
  if req.method ≠ "GET" then
    ResourceOutcome.failed ("invalid HTTP method: " ++ req.method)
  else if !urlAllowed req.url then
    ResourceOutcome.failed ("invalid URL: " ++ req.url)
  else
    match rawQuery ("/loki/api/v1/" ++ req.url) with
    | Except.error e => ResourceOutcome.failed e
    | Except.ok r =>
      let respHeaders :=
        if r.encoding ≠ "" then
          [("content-type", ["application/json"]),
           ("content-encoding", [r.encoding])]
        else
          [("content-type", ["application/json"])]
      ResourceOutcome.sent
        { status := r.status, headers := respHeaders, body := r.body }

/-- Header lookup in a sent response (Go: `resp.Headers[name]`). -/
def headerValues (hs : List (String × List String)) (name : String) :
    Option (List String) :=
  (hs.find? (fun p => p.1 == name)).map Prod.snd

end Loki

namespace QueryService

/-- The two error values `validateRequest` can return
(`ErrDuplicateRefId`, `ErrQueryParamMismatch`). -/
inductive QueryError where
  | duplicateRefId
  | queryParamMismatch
deriving Repr, DecidableEq

/-- One parsed sub-query of the query service (`parsedQuery` in
`model.go`); validation reads only `q.query.RefID`. -/
structure ParsedQuery where
  refID : String
deriving Repr, DecidableEq

/-- `parsedRequest` from `model.go`.  `parsedQueries` is a Go map from
datasource type to the bucket of queries of that type, modelled as an
association list in iteration order; `dsTypes` is a Go `map[type]bool`. -/
structure ParsedRequest where
  hasExpression : Bool
  parsedQueries : List (String × List ParsedQuery)
  dsTypes : List (String × Bool)
deriving Repr, DecidableEq

/-- The ambient HTTP request reachable from the context
(`contexthandler.FromContext(ctx).Req`): the `expression` URL query
parameter (Go's `Query().Get` returns `""` when absent) and the raw values
of the two hint headers (`HeaderDatasourceUID`, `HeaderPluginID`). -/
structure ReqContext where
  expressionParam : String
  datasourceUidHeader : List String
  pluginIdHeader : List String
deriving Repr, DecidableEq

/-- Whitespace as trimmed by Go's `strings.TrimSpace`. -/
def isSpaceChar (c : Char) : Bool :=
  c == ' ' || c == '\t' || c == '\n' || c == '\r'

/-- Go's `strings.TrimSpace`, modelled on the character list so that it
evaluates inside the kernel. -/
def trimSpace (s : String) : String :=
  String.mk (((s.data.dropWhile isSpaceChar).reverse.dropWhile
    isSpaceChar).reverse)

/-- Splitting on a comma (Go's `strings.Split(v, ",")`), modelled on the
character list so that it evaluates inside the kernel. -/
def splitOnCommaAux : List Char → List Char → List String
  | [], acc => [String.mk acc.reverse]
  | c :: rest, acc =>
    if c == ',' then String.mk acc.reverse :: splitOnCommaAux rest []
    else splitOnCommaAux rest (c :: acc)

def splitOnComma (s : String) : List String :=
  splitOnCommaAux s.data []

/-- `splitHeaders` from `model.go`: any value containing a comma is split on
commas and each piece trimmed; other values pass through unchanged. -/
def splitHeaders (headers : List String) : List String :=
  headers.flatMap (fun v =>
    if v.data.contains ',' then (splitOnComma v).map trimSpace else [v])

/-- The duplicate-RefID loop of `validateRequest`: walk the flattened
queries keeping the set of RefIDs seen so far; report whether some RefID
repeats (the Go loop returns `ErrDuplicateRefId` at the first repeat). -/
def dupScan (seen : List String) : List ParsedQuery → Bool
  | [] => false
  | q :: rest =>
    if q.refID ∈ seen then true else dupScan (q.refID :: seen) rest

/-- The second header check of `validateRequest`, against `pr.dsTypes`
(the `HeaderPluginID` hint). -/
def pluginIdCheck (pr : ParsedRequest) (reqCtx : ReqContext) :
    Option QueryError :=
  let vals := splitHeaders reqCtx.pluginIdHeader
  if 0 < vals.length then
    if vals.length ≠ pr.dsTypes.length then
      some QueryError.queryParamMismatch
    else if vals.any (fun t =>
        ((pr.dsTypes.find? (fun p => p.1 == t)).map Prod.snd).getD false
          = false) then
      some QueryError.queryParamMismatch
    else
      none
  else
    none

/-- The header-validation tail of `validateRequest` (dead code in the
source: the hardcoded `if true { return nil }` above it always returns
first).  Translated nonetheless, so that the bypass is visible in
`validateRequest` rather than elided. -/
def headerChecks (pr : ParsedRequest) (ctx : Option ReqContext) :
    Option QueryError :=
  match ctx with
  | none => none
  | some reqCtx =>
    if pr.hasExpression then
      if reqCtx.expressionParam == "" || reqCtx.expressionParam == "true" then
        none
      else
        some QueryError.queryParamMismatch
    else
      let vals := splitHeaders reqCtx.datasourceUidHeader
      if 0 < vals.length then
        if vals.length ≠ pr.parsedQueries.length then
          some QueryError.queryParamMismatch
        else if vals.any (fun t =>
            (pr.parsedQueries.find? (fun p => p.1 == t)) = none) then
          some QueryError.queryParamMismatch
        else
          pluginIdCheck pr reqCtx
      else
        pluginIdCheck pr reqCtx

/-- `validateRequest` from `model.go`: the duplicate-RefID check over all
buckets, then the hardcoded bypass `if true { return nil }` that makes the
header validation below it unreachable. -/
def validateRequest (pr : ParsedRequest) (ctx : Option ReqContext) :
    Option QueryError :=
  if dupScan [] (pr.parsedQueries.flatMap Prod.snd) then
    some QueryError.duplicateRefId
  else if true then
    none
  else
    headerChecks pr ctx

end QueryService

namespace HttpClientProvider

/-- The body of an HTTP response: either the raw body handed back by the
transport, or that body wrapped by `httpclient.MaxBytesReader` with a byte
limit. -/
inductive Body where
  | raw (data : String)
  | maxBytesReader (inner : Body) (limit : Int)
deriving Repr, DecidableEq

/-- An `*http.Response`, reduced to the fields the middleware reads. -/
structure HttpResponse where
  statusCode : Nat
  body : Body
deriving Repr, DecidableEq

/-- An `http.RoundTripper`: Go's `RoundTrip` returns a response pointer
(possibly nil) and an error (possibly nil). -/
abbrev RoundTripper := String → Option HttpResponse × Option String

/-- `http.StatusSwitchingProtocols`. -/
def statusSwitchingProtocols : Nat := 101

/-- `ResponseLimitMiddleware` from `response_limit_middleware.go` (the
`NamedMiddlewareFunc` wrapper only attaches the name "response-limit"; the
middleware ignores its `Options` argument).  A non-positive limit returns
`next` unchanged; otherwise a transport error is returned as `(nil, err)`,
and a non-nil response whose status is not 101 Switching Protocols has its
body wrapped in `MaxBytesReader` with the limit. -/
def ResponseLimitMiddleware (limit : Int) (_opts : Unit)
    (next : RoundTripper) : RoundTripper :=
  if limit ≤ 0 then
    next
  else
    fun req =>
      match next req with
      | (_, some err) => (none, some err)
      | (some res, none) =>
        if res.statusCode ≠ statusSwitchingProtocols then
          (some { res with body := Body.maxBytesReader res.body limit }, none)
        else
          (some res, none)
      | (none, none) => (none, none)

end HttpClientProvider

namespace Fixtures

/-- A deterministic backend for concrete runs: a query whose payload is
`boom` fails with a backend error, any other query returns one frame built
from its payload; frame adjustment is the identity. -/
def backend : Loki.Backend where
  dataQuery := fun q =>
    if q.expr = "boom" then Except.error "backend down"
    else Except.ok [q.expr ++ "!"]
  adjustFrame := fun f _ _ _ => Except.ok f

/-- A deterministic decoder: the payload `bad` fails to decode, any other
payload decodes to itself. -/
def unmarshal : String → Except String String :=
  fun s => if s = "bad" then Except.error "decode fail" else Except.ok s

def opts : Loki.ResponseOpts where
  metricDataplane := true
  logsDataplane := true

def reqAB : Loki.QueryDataRequest := ⟨[⟨"A", "x"⟩, ⟨"B", "boom"⟩]⟩

def reqA : Loki.QueryDataRequest := ⟨[⟨"A", "x"⟩]⟩

def reqABgood : Loki.QueryDataRequest := ⟨[⟨"A", "x"⟩, ⟨"B", "y"⟩]⟩

def reqXdup : Loki.QueryDataRequest := ⟨[⟨"X", "x"⟩, ⟨"X", "boom"⟩]⟩

def reqXonly : Loki.QueryDataRequest := ⟨[⟨"X", "x"⟩]⟩

def reqXXdistinct : Loki.QueryDataRequest := ⟨[⟨"X", "x"⟩, ⟨"X", "y"⟩]⟩

def reqBad : Loki.QueryDataRequest := ⟨[⟨"A", "x"⟩, ⟨"B", "bad"⟩]⟩

def sched01 : Loki.Schedule := ⟨[0, 1], none⟩

def sched10 : Loki.Schedule := ⟨[1, 0], none⟩

def sched1 : Loki.Schedule := ⟨[0], none⟩

def schedCancel : Loki.Schedule := ⟨[0], some "context canceled"⟩

def pr1 : QueryService.ParsedRequest where
  hasExpression := false
  parsedQueries := [("loki-ds", [⟨"A"⟩])]
  dsTypes := [("loki-ds", true)]

/-- Hint headers that do not match `pr1`: two datasource-UID values against
a single partition bucket. -/
def ctxMismatch : QueryService.ReqContext where
  expressionParam := ""
  datasourceUidHeader := ["prometheus-ds", "other-ds"]
  pluginIdHeader := []

def rawQueryOk : String → Except String Loki.RawLokiResponse :=
  fun _ => Except.ok { status := 200, body := "resp-body", encoding := "gzip" }

def resReq : Loki.CallResourceRequest where
  method := "GET"
  url := "labels?match=up"

def resReqPost : Loki.CallResourceRequest where
  method := "POST"
  url := "labels?match=up"

def wNext : HttpClientProvider.RoundTripper :=
  fun _ => (some ⟨200, HttpClientProvider.Body.raw "payload"⟩, none)

end Fixtures

namespace Loki

theorem setResponse_fresh (m : Responses) (k : String) (v : DataResponse)
    (h : ∀ p ∈ m, p.1 ≠ k) : setResponse m k v = m ++ [(k, v)] := by
  unfold setResponse
  have hany : m.any (fun p => p.1 == k) = false := by
    simp only [List.any_eq_false]
    intro p hp
    simpa using h p hp
  simp [hany]

theorem foldl_setResponse (f : LokiQuery → DataResponse) (l : List LokiQuery) :
    ∀ (m : Responses),
      (l.map (fun q => q.refID)).Nodup →
      (∀ q ∈ l, ∀ p ∈ m, p.1 ≠ q.refID) →
      l.foldl (fun acc q => setResponse acc q.refID (f q)) m
        = m ++ l.map (fun q => (q.refID, f q)) := by
  induction l with
  | nil => intro m _ _; simp
  | cons q rest ih =>
    intro m hnd hdisj
    have hnd' : (q.refID :: rest.map (fun r => r.refID)).Nodup := by
      simpa using hnd
    rw [List.foldl_cons,
      setResponse_fresh m q.refID (f q)
        (fun p hp => hdisj q (List.mem_cons_self q rest) p hp)]
    rw [ih (m ++ [(q.refID, f q)]) (List.nodup_cons.mp hnd').2 ?fresh]
    · simp
    case fresh =>
      intro q' hq' p hp
      rcases List.mem_append.mp hp with hm | hm
      · exact hdisj q' (List.mem_cons_of_mem _ hq') p hm
      · have hpq : p = (q.refID, f q) := by simpa using hm
        subst hpq
        intro hEq
        have h3 : q'.refID ∈ rest.map (fun r => r.refID) :=
          List.mem_map_of_mem _ hq'
        have h4 : q.refID = q'.refID := hEq
        exact (List.nodup_cons.mp hnd').1 (by rw [h4]; exact h3)

theorem getResponse_entries (f : LokiQuery → DataResponse)
    (l : List LokiQuery) (k : String) :
    getResponse (l.map (fun q => (q.refID, f q))) k
      = (l.find? (fun q => q.refID == k)).map f := by
  unfold getResponse
  rw [List.find?_map]
  rw [Option.map_map]
  rfl

theorem find?_refID_eq_some (l : List LokiQuery) (k : String) (a : LokiQuery)
    (hnd : (l.map (fun q => q.refID)).Nodup) :
    l.find? (fun q => q.refID == k) = some a ↔ a ∈ l ∧ a.refID = k := by
  constructor
  · intro h
    exact ⟨List.mem_of_find?_eq_some h, by simpa using List.find?_some h⟩
  · rintro ⟨hmem, hk⟩
    induction l with
    | nil => cases hmem
    | cons q rest ih =>
      have hnd' : (q.refID :: rest.map (fun r => r.refID)).Nodup := by
        simpa using hnd
      by_cases hq : q.refID = k
      · rw [List.find?_cons_of_pos rest (by simpa using hq)]
        rcases List.mem_cons.mp hmem with h | h
        · rw [h]
        · exfalso
          exact (List.nodup_cons.mp hnd').1
            (by rw [hq, ← hk]; exact List.mem_map_of_mem _ h)
      · rw [List.find?_cons_of_neg rest (by simpa using hq)]
        have hmem' : a ∈ rest := by
          rcases List.mem_cons.mp hmem with h | h
          · exact absurd (h ▸ hk) hq
          · exact h
        exact ih (by simpa using (List.nodup_cons.mp hnd').2) hmem'

theorem getResponse_entries_perm (f : LokiQuery → DataResponse)
    (l l' : List LokiQuery) (k : String) (hp : l.Perm l')
    (hnd : (l.map (fun q => q.refID)).Nodup) :
    getResponse (l.map (fun q => (q.refID, f q))) k
      = getResponse (l'.map (fun q => (q.refID, f q))) k := by
  have hnd' : (l'.map (fun q => q.refID)).Nodup :=
    hnd.perm (hp.map (fun q => q.refID))
  rw [getResponse_entries, getResponse_entries]
  cases h : l.find? (fun q => q.refID == k) with
  | none =>
    rw [List.find?_eq_none] at h
    have h2 : l'.find? (fun q => q.refID == k) = none := by
      rw [List.find?_eq_none]
      intro x hx
      exact h x (hp.mem_iff.mpr hx)
    rw [h2]
  | some a =>
    have h2 := (find?_refID_eq_some l k a hnd).mp h
    rw [(find?_refID_eq_some l' k a hnd').mpr ⟨hp.mem_iff.mp h2.1, h2.2⟩]

theorem range_filterMap_getElem (l : List LokiQuery) :
    (List.range l.length).filterMap (fun i => l[i]?) = l := by
  induction l with
  | nil => simp
  | cons x xs ih =>
    rw [List.length_cons, List.range_succ_eq_map, List.filterMap_cons]
    simp only [List.getElem?_cons_zero, List.filterMap_map]
    have hcomp : ((fun i => (x :: xs)[i]?) ∘ Nat.succ) = fun i => xs[i]? := by
      funext i
      simp
    rw [hcomp, ih]

theorem executed_perm (s : Schedule) (queries : List LokiQuery)
    (hv : s.valid queries.length) (hc : s.ctxErr = none) :
    (s.executed queries).Perm queries := by
  obtain ⟨hnd, hbound, hcomp⟩ := hv
  have hperm : s.order.Perm (List.range queries.length) := by
    rw [List.perm_ext_iff_of_nodup hnd (List.nodup_range _)]
    intro i
    constructor
    · intro hi
      exact List.mem_range.mpr (hbound i hi)
    · intro hi
      exact hcomp hc i (List.mem_range.mp hi)
  have h1 := hperm.filterMap (fun i => queries[i]?)
  rw [range_filterMap_getElem] at h1
  exact h1

theorem executed_refID_nodup (queries : List LokiQuery)
    (hnd : (queries.map (fun q => q.refID)).Nodup) :
    ∀ (is : List Nat), is.Nodup → (∀ i ∈ is, i < queries.length) →
      ((is.filterMap (fun i => queries[i]?)).map (fun q => q.refID)).Nodup := by
  intro is
  induction is with
  | nil => intro _ _; simp
  | cons i rest ih =>
    intro hnd' hb
    have hi : i < queries.length := hb i (List.mem_cons_self i rest)
    rw [List.filterMap_cons, List.getElem?_eq_getElem hi]
    simp only [List.map_cons, List.nodup_cons]
    constructor
    · intro hmem
      rw [List.mem_map] at hmem
      obtain ⟨q', hq', hrefid⟩ := hmem
      rw [List.mem_filterMap] at hq'
      obtain ⟨i', hi'mem, hgot⟩ := hq'
      have hi' : i' < queries.length := hb i' (List.mem_cons_of_mem _ hi'mem)
      rw [List.getElem?_eq_getElem hi'] at hgot
      have hq'eq : queries[i'] = q' := by
        injection hgot
      have hii' : i ≠ i' := fun h =>
        (List.nodup_cons.mp hnd').1 (h ▸ hi'mem)
      have hmi : i < (queries.map (fun q => q.refID)).length := by
        rw [List.length_map]
        exact hi
      have hmi' : i' < (queries.map (fun q => q.refID)).length := by
        rw [List.length_map]
        exact hi'
      have hkey : (queries.map (fun q => q.refID))[i']
          = (queries.map (fun q => q.refID))[i] := by
        rw [List.getElem_map, List.getElem_map, hq'eq, hrefid]
      exact hii' ((List.Nodup.getElem_inj_iff hnd).mp hkey.symm)
    · exact ih (List.nodup_cons.mp hnd').2
        (fun j hj => hb j (List.mem_cons_of_mem _ hj))

theorem parseQueries_refIDs (u : String → Except String String)
    (rqs : List RawQuery) :
    ∀ (qs : List LokiQuery), parseQueries u rqs = Except.ok qs →
      qs.map (fun q => q.refID) = rqs.map (fun rq => rq.refID) := by
  induction rqs with
  | nil =>
    intro qs h
    simp only [parseQueries] at h
    cases h
    simp
  | cons rq rest ih =>
    intro qs h
    simp only [parseQueries] at h
    cases hm : parseQueryModel u rq.json with
    | error e => rw [hm] at h; cases h
    | ok m =>
      rw [hm] at h
      cases hr : parseQueries u rest with
      | error e => rw [hr] at h; cases h
      | ok qs' =>
        rw [hr] at h
        cases h
        simp only [List.map_cons]
        rw [ih qs' hr]

theorem parseQueries_first_error (u : String → Except String String)
    (pre : List RawQuery) (bad : RawQuery) (post : List RawQuery) (e : String)
    (hpre : ∀ rq ∈ pre, ∃ m, u rq.json = Except.ok m)
    (hbad : u bad.json = Except.error e) :
    parseQueries u (pre ++ bad :: post) = Except.error e := by
  induction pre with
  | nil =>
    simp only [List.nil_append, parseQueries, parseQueryModel, hbad]
  | cons rq rest ih =>
    obtain ⟨m, hm⟩ := hpre rq (List.mem_cons_self rq rest)
    have ih2 := ih (fun rq2 h2 => hpre rq2 (List.mem_cons_of_mem _ h2))
    simp only [List.cons_append, parseQueries, parseQueryModel, hm]
    rw [show rest.append (bad :: post) = rest ++ bad :: post from rfl, ih2]

theorem queryData_par_entries (b : Backend)
    (u : String → Except String String) (req : QueryDataRequest)
    (opts : ResponseOpts) (sched : Schedule) (queries : List LokiQuery)
    (hp : parseQuery u req = Except.ok queries)
    (hnd : (queries.map (fun q => q.refID)).Nodup)
    (hord : sched.order.Nodup)
    (hbound : ∀ i ∈ sched.order, i < queries.length) :
    queryData b u req opts true sched
      = ((sched.executed queries).map
          (fun q => (q.refID, executeQuery b q opts)), sched.ctxErr) := by
  have hexec : ((sched.executed queries).map (fun q => q.refID)).Nodup :=
    executed_refID_nodup queries hnd sched.order hord hbound
  unfold queryData
  rw [hp]
  show ((sched.executed queries).foldl
      (fun m q => setResponse m q.refID (executeQuery b q opts)) [],
    sched.ctxErr)
      = ((sched.executed queries).map
          (fun q => (q.refID, executeQuery b q opts)), sched.ctxErr)
  rw [foldl_setResponse (fun q => executeQuery b q opts)
    (sched.executed queries) [] hexec (by intro q _ p hp2; cases hp2)]
  simp

theorem queryData_seq_entries (b : Backend)
    (u : String → Except String String) (req : QueryDataRequest)
    (opts : ResponseOpts) (sched : Schedule) (queries : List LokiQuery)
    (hp : parseQuery u req = Except.ok queries)
    (hnd : (queries.map (fun q => q.refID)).Nodup) :
    queryData b u req opts false sched
      = (queries.map (fun q => (q.refID, executeQuery b q opts)), none) := by
  unfold queryData
  rw [hp]
  show (queries.foldl
      (fun m q => setResponse m q.refID (executeQuery b q opts)) [], none)
      = (queries.map (fun q => (q.refID, executeQuery b q opts)),
        (none : Option String))
  rw [foldl_setResponse (fun q => executeQuery b q opts)
    queries [] hnd (by intro q _ p hp2; cases hp2)]
  simp

theorem find?_eraseIdx_of_ne (l : List LokiQuery) (j : Nat)
    (hj : j < l.length) (hnd : (l.map (fun q => q.refID)).Nodup)
    (k : String) (hk : k ≠ l[j].refID) :
    (l.eraseIdx j).find? (fun q => q.refID == k)
      = l.find? (fun q => q.refID == k) := by
  have hsub : (l.eraseIdx j).Sublist l := List.eraseIdx_sublist l j
  have hnd' : ((l.eraseIdx j).map (fun q => q.refID)).Nodup :=
    List.Nodup.sublist (hsub.map _) hnd
  cases h : l.find? (fun q => q.refID == k) with
  | none =>
    rw [List.find?_eq_none] at h
    rw [List.find?_eq_none]
    intro x hx
    exact h x (hsub.mem hx)
  | some a =>
    obtain ⟨hmem, hak⟩ := (find?_refID_eq_some l k a hnd).mp h
    obtain ⟨i, hi, hia⟩ := List.mem_iff_getElem.mp hmem
    have hij : i ≠ j := by
      intro hEq
      subst hEq
      apply hk
      rw [← hak, ← hia]
    exact (find?_refID_eq_some (l.eraseIdx j) k a hnd').mpr
      ⟨List.mem_eraseIdx_iff_getElem.mpr ⟨i, hi, hij, hia⟩, hak⟩

end Loki


namespace QueryService

theorem dupScan_eq_true (l : List ParsedQuery) :
    ∀ (seen : List String),
      dupScan seen l = true ↔
        (∃ q ∈ l, q.refID ∈ seen) ∨ ¬ (l.map (fun q => q.refID)).Nodup := by
  induction l with
  | nil =>
    intro seen
    simp [dupScan]
  | cons q rest ih =>
    intro seen
    unfold dupScan
    by_cases h : q.refID ∈ seen
    · rw [if_pos h]
      constructor
      · intro _
        exact Or.inl ⟨q, List.mem_cons_self q rest, h⟩
      · intro _
        rfl
    · rw [if_neg h, ih (q.refID :: seen)]
      constructor
      · rintro (⟨q', hq', hin⟩ | hnd)
        · rcases List.mem_cons.mp hin with heq | hin2
          · right
            rw [List.map_cons, List.nodup_cons]
            rintro ⟨hnotin, _⟩
            exact hnotin (by rw [← heq]; exact List.mem_map_of_mem _ hq')
          · exact Or.inl ⟨q', List.mem_cons_of_mem _ hq', hin2⟩
        · right
          rw [List.map_cons, List.nodup_cons]
          rintro ⟨_, hnd2⟩
          exact hnd hnd2
      · rintro (⟨q', hq', hin⟩ | hnd)
        · rcases List.mem_cons.mp hq' with heq | hq2
          · exact absurd (heq ▸ hin) h
          · exact Or.inl ⟨q', hq2, List.mem_cons_of_mem _ hin⟩
        · rw [List.map_cons, List.nodup_cons] at hnd
          rcases not_and_or.mp hnd with hmem | hnd2
          · obtain ⟨q', hq', heq⟩ := List.mem_map.mp (not_not.mp hmem)
            exact Or.inl ⟨q', hq', by rw [heq]; exact List.mem_cons_self _ _⟩
          · exact Or.inr hnd2

end QueryService

namespace QueryService

/-- C4: `validateRequest` returns the duplicate-identifier error
(`ErrDuplicateRefId`) exactly when two queries, possibly in different
backend-kind buckets, share a RefID; with all identifiers distinct across
all buckets it never returns that error. -/
theorem validateRequest_duplicate_iff (pr : ParsedRequest)
    (ctx : Option ReqContext) :
    validateRequest pr ctx = some QueryError.duplicateRefId ↔
      ¬ ((pr.parsedQueries.flatMap Prod.snd).map (fun q => q.refID)).Nodup := by
  unfold validateRequest
  by_cases h : dupScan [] (pr.parsedQueries.flatMap Prod.snd) = true
  · rw [if_pos h]
    rcases (dupScan_eq_true _ []).mp h with ⟨q, _, hq⟩ | hnd
    · cases hq
    · simp [hnd]
  · rw [if_neg h]
    have h2 : ((pr.parsedQueries.flatMap Prod.snd).map
        (fun q => q.refID)).Nodup := by
      by_contra hnd
      exact h ((dupScan_eq_true _ []).mpr (Or.inr hnd))
    simp [h2]

/-- C5 counterexample: a request whose datasource-UID hint headers disagree
with the discovered partition set (two hint values against one bucket) is
not rejected: `validateRequest` returns no error at all, because the
hardcoded bypass returns before the header checks run — although the header
checks, had they been reachable, would have reported the mismatch. -/
theorem validateRequest_header_mismatch_not_reported :
    validateRequest Fixtures.pr1 (some Fixtures.ctxMismatch) = none ∧
      validateRequest Fixtures.pr1 (some Fixtures.ctxMismatch)
          ≠ some QueryError.queryParamMismatch ∧
      headerChecks Fixtures.pr1 (some Fixtures.ctxMismatch)
          = some QueryError.queryParamMismatch := by
  refine ⟨by decide, by decide, by decide⟩

/-- C5 (amended): the header cross-checks sit behind the hardcoded bypass
(`if true { return nil }`), so whatever hint headers the request carries,
`validateRequest` either reports duplicate identifiers or accepts — it never
returns the `QueryParameterMismatch` error. -/
theorem validateRequest_never_queryParamMismatch (pr : ParsedRequest)
    (ctx : Option ReqContext) :
    validateRequest pr ctx = some QueryError.duplicateRefId ∨
      validateRequest pr ctx = none := by
  unfold validateRequest
  by_cases h : dupScan [] (pr.parsedQueries.flatMap Prod.snd) = true
  · rw [if_pos h]
    exact Or.inl rfl
  · rw [if_neg h]
    exact Or.inr (by simp)

end QueryService

namespace Loki

/-- C8: `callResource` rejects — independently of the backend, hence before
the API handle is built or any network call is issued — every request whose
method is not GET or whose URL does not start with `labels?`, `label/`,
`series?` or `index/stats?`; a request passing both checks is forwarded to
the backend on `/loki/api/v1/<url>` (a backend error is returned, a backend
success is sent). -/
theorem callResource_gate (api : String → Except String RawLokiResponse)
    (req : CallResourceRequest) :
    (¬ (req.method = "GET" ∧ urlAllowed req.url = true) →
        ∃ msg, ∀ api2 : String → Except String RawLokiResponse,
          callResource api2 req = ResourceOutcome.failed msg) ∧
      (req.method = "GET" → urlAllowed req.url = true →
        (∀ e, api ("/loki/api/v1/" ++ req.url) = Except.error e →
            callResource api req = ResourceOutcome.failed e) ∧
        (∀ r, api ("/loki/api/v1/" ++ req.url) = Except.ok r →
            ∃ resp, callResource api req = ResourceOutcome.sent resp)) := by
  constructor
  · intro hrej
    by_cases hm : req.method = "GET"
    · have hu : urlAllowed req.url = false := by
        cases hu2 : urlAllowed req.url
        · rfl
        · exact absurd ⟨hm, hu2⟩ hrej
      refine ⟨"invalid URL: " ++ req.url, fun api2 => ?_⟩
      unfold callResource
      rw [if_neg (by simp [hm]), if_pos (by simp [hu])]
    · refine ⟨"invalid HTTP method: " ++ req.method, fun api2 => ?_⟩
      unfold callResource
      rw [if_pos hm]
  · intro hm hu
    constructor
    · intro e he
      unfold callResource
      rw [if_neg (by simp [hm]), if_neg (by simp [hu]), he]
    · intro r hr
      unfold callResource
      rw [if_neg (by simp [hm]), if_neg (by simp [hu]), hr]
      exact ⟨_, rfl⟩

/-- C8 witness: a POST request is rejected whatever the backend does; a GET
request with an allow-listed URL is forwarded and sent. -/
theorem callResource_gate_witness :
    (∃ msg, ∀ api2 : String → Except String Loki.RawLokiResponse,
        Loki.callResource api2 Fixtures.resReqPost
          = Loki.ResourceOutcome.failed msg) ∧
      ∃ resp, Loki.callResource Fixtures.rawQueryOk Fixtures.resReq
        = Loki.ResourceOutcome.sent resp :=
  ⟨(callResource_gate Fixtures.rawQueryOk Fixtures.resReqPost).1 (by decide),
   ((callResource_gate Fixtures.rawQueryOk Fixtures.resReq).2 rfl
      (by decide)).2 { status := 200, body := "resp-body", encoding := "gzip" }
      rfl⟩

theorem headerValues_contentType (enc : String) :
    headerValues [("content-type", ["application/json"]),
        ("content-encoding", [enc])] "content-type"
      = some ["application/json"] := by
  unfold headerValues
  rw [List.find?_cons_of_pos _ (by decide)]
  rfl

theorem headerValues_contentEncoding (enc : String) :
    headerValues [("content-type", ["application/json"]),
        ("content-encoding", [enc])] "content-encoding"
      = some [enc] := by
  unfold headerValues
  rw [List.find?_cons_of_neg _ (by decide),
    @List.find?_cons_of_pos _ (fun p => p.1 == "content-encoding")
      ("content-encoding", [enc]) [] (beq_self_eq_true _)]
  rfl

/-- C10: on a successful backend resource call, `callResource` sends the
backend's status and body verbatim, sets the content-type header to exactly
`application/json` regardless of the backend response, and includes a
content-encoding header exactly when the backend's `Encoding` field is
non-empty. -/
theorem callResource_forwards_with_json_content_type
    (api : String → Except String RawLokiResponse)
    (req : CallResourceRequest) (r : RawLokiResponse)
    (hm : req.method = "GET") (hu : urlAllowed req.url = true)
    (hok : api ("/loki/api/v1/" ++ req.url) = Except.ok r) :
    ∃ resp, callResource api req = ResourceOutcome.sent resp ∧
      resp.status = r.status ∧ resp.body = r.body ∧
      headerValues resp.headers "content-type" = some ["application/json"] ∧
      (r.encoding ≠ "" →
        headerValues resp.headers "content-encoding" = some [r.encoding]) ∧
      (r.encoding = "" →
        headerValues resp.headers "content-encoding" = none) := by
  by_cases he : r.encoding = ""
  · have hcall : callResource api req
        = ResourceOutcome.sent
            ⟨r.status, [("content-type", ["application/json"])], r.body⟩ := by
      unfold callResource
      rw [if_neg (by simp [hm]), if_neg (by simp [hu]), hok]
      simp [he]
    refine ⟨_, hcall, rfl, rfl, ?_, ?_, ?_⟩
    · unfold headerValues
      rw [List.find?_cons_of_pos [] (by decide)]
      rfl
    · intro h
      exact absurd he h
    · intro _
      unfold headerValues
      rw [List.find?_cons_of_neg [] (by decide)]
      rfl
  · have hcall : callResource api req
        = ResourceOutcome.sent
            ⟨r.status, [("content-type", ["application/json"]),
              ("content-encoding", [r.encoding])], r.body⟩ := by
      unfold callResource
      rw [if_neg (by simp [hm]), if_neg (by simp [hu]), hok]
      simp [he]
    refine ⟨_, hcall, rfl, rfl, headerValues_contentType r.encoding, ?_, ?_⟩
    · intro _
      exact headerValues_contentEncoding r.encoding
    · intro h
      exact absurd h he

/-- C10 witness: a concrete GET on `labels?match=up` against a backend
answering 200/`resp-body` with gzip encoding. -/
theorem callResource_forwards_witness :
    ∃ resp, Loki.callResource Fixtures.rawQueryOk Fixtures.resReq
        = Loki.ResourceOutcome.sent resp ∧
      resp.status = 200 ∧ resp.body = "resp-body" ∧
      Loki.headerValues resp.headers "content-type"
        = some ["application/json"] ∧
      ("gzip" ≠ "" →
        Loki.headerValues resp.headers "content-encoding" = some ["gzip"]) ∧
      ("gzip" = "" →
        Loki.headerValues resp.headers "content-encoding" = none) :=
  callResource_forwards_with_json_content_type Fixtures.rawQueryOk
    Fixtures.resReq { status := 200, body := "resp-body", encoding := "gzip" }
    rfl (by decide) rfl

end Loki

namespace HttpClientProvider

/-- C9: with a non-positive limit `ResponseLimitMiddleware` returns `next`
unchanged; with a positive limit a transport error passes through unchanged
(alongside a nil response, as in the source's `return nil, err`), a non-nil
response that is not 101 Switching Protocols gets its body wrapped in
`MaxBytesReader` with the limit, and a 101 response — like a nil one — is
left untouched. -/
theorem ResponseLimitMiddleware_spec (limit : Int) (opts : Unit)
    (next : RoundTripper) :
    (limit ≤ 0 → ResponseLimitMiddleware limit opts next = next) ∧
      (0 < limit →
        (∀ req res err, next req = (res, some err) →
            ResponseLimitMiddleware limit opts next req = (none, some err)) ∧
        (∀ req res, next req = (some res, none) →
            res.statusCode ≠ statusSwitchingProtocols →
            ResponseLimitMiddleware limit opts next req
              = (some { res with
                  body := Body.maxBytesReader res.body limit }, none)) ∧
        (∀ req res, next req = (some res, none) →
            res.statusCode = statusSwitchingProtocols →
            ResponseLimitMiddleware limit opts next req = (some res, none)) ∧
        (∀ req, next req = (none, none) →
            ResponseLimitMiddleware limit opts next req = (none, none))) := by
  constructor
  · intro h
    unfold ResponseLimitMiddleware
    rw [if_pos h]
  · intro h
    have hn : ¬ limit ≤ 0 := not_le.mpr h
    refine ⟨?_, ?_, ?_, ?_⟩
    · intro req res err hreq
      unfold ResponseLimitMiddleware
      rw [if_neg hn]
      show (match next req with
        | (_, some err) => ((none : Option HttpResponse), some err)
        | (some res, none) =>
          if res.statusCode ≠ statusSwitchingProtocols then
            (some { res with body := Body.maxBytesReader res.body limit },
              none)
          else (some res, none)
        | (none, none) => (none, none)) = (none, some err)
      rw [hreq]
      cases res <;> rfl
    · intro req res hreq h101
      unfold ResponseLimitMiddleware
      rw [if_neg hn]
      show (match next req with
        | (_, some err) => ((none : Option HttpResponse), some err)
        | (some res, none) =>
          if res.statusCode ≠ statusSwitchingProtocols then
            (some { res with body := Body.maxBytesReader res.body limit },
              none)
          else (some res, none)
        | (none, none) => (none, none))
          = (some { res with body := Body.maxBytesReader res.body limit },
            none)
      rw [hreq]
      show (if res.statusCode ≠ statusSwitchingProtocols then _ else _) = _
      rw [if_pos h101]
    · intro req res hreq h101
      unfold ResponseLimitMiddleware
      rw [if_neg hn]
      show (match next req with
        | (_, some err) => ((none : Option HttpResponse), some err)
        | (some res, none) =>
          if res.statusCode ≠ statusSwitchingProtocols then
            (some { res with body := Body.maxBytesReader res.body limit },
              none)
          else (some res, none)
        | (none, none) => (none, none)) = (some res, none)
      rw [hreq]
      show (if res.statusCode ≠ statusSwitchingProtocols then _ else _) = _
      rw [if_neg (by simp [h101])]
    · intro req hreq
      unfold ResponseLimitMiddleware
      rw [if_neg hn]
      show (match next req with
        | (_, some err) => ((none : Option HttpResponse), some err)
        | (some res, none) =>
          if res.statusCode ≠ statusSwitchingProtocols then
            (some { res with body := Body.maxBytesReader res.body limit },
              none)
          else (some res, none)
        | (none, none) => (none, none)) = (none, none)
      rw [hreq]

/-- C9 witness: limit 5 wraps a 200 response's body; limit 0 returns the
round tripper unchanged. -/
theorem ResponseLimitMiddleware_spec_witness :
    ResponseLimitMiddleware 5 () Fixtures.wNext "r"
        = (some ⟨200, Body.maxBytesReader (Body.raw "payload") 5⟩, none) ∧
      ResponseLimitMiddleware 0 () Fixtures.wNext = Fixtures.wNext :=
  ⟨((ResponseLimitMiddleware_spec 5 () Fixtures.wNext).2 (by decide)).2.1 "r"
      ⟨200, Body.raw "payload"⟩ rfl (by decide),
   (ResponseLimitMiddleware_spec 0 () Fixtures.wNext).1 (by decide)⟩

end HttpClientProvider

namespace Loki

/-- C6 counterexample: in the batch `[A: good payload, B: undecodable
payload]`, the decode failure of B aborts the whole batch — `queryData`
returns the decode error as a request-level error together with an empty
response map, so the well-formed sibling A's outcome is not retained under
its identifier. -/
theorem queryData_sibling_outcome_lost_on_decode_failure :
    Loki.queryData Fixtures.backend Fixtures.unmarshal Fixtures.reqBad
        Fixtures.opts false Fixtures.sched1 = ([], some "decode fail") ∧
      Loki.getResponse (Loki.queryData Fixtures.backend Fixtures.unmarshal
          Fixtures.reqBad Fixtures.opts false Fixtures.sched1).1 "A"
        = none := by
  refine ⟨by decide, by decide⟩

/-- C6 (amended): a sub-query payload that fails to decode makes `queryData`
abort the whole batch in either mode: the decode error is returned as the
request-level error and the response map is empty — no outcome is retained
for the failing query or for any sibling. -/
theorem queryData_decode_failure_aborts (b : Backend)
    (u : String → Except String String) (req : QueryDataRequest)
    (opts : ResponseOpts) (mode : Bool) (sched : Schedule)
    (pre : List RawQuery) (bad : RawQuery) (post : List RawQuery) (e : String)
    (hsplit : req.queries = pre ++ bad :: post)
    (hpre : ∀ rq ∈ pre, ∃ m, u rq.json = Except.ok m)
    (hbad : u bad.json = Except.error e) :
    queryData b u req opts mode sched = ([], some e) := by
  unfold queryData parseQuery
  rw [hsplit, parseQueries_first_error u pre bad post e hpre hbad]

/-- C6 witness: the amended behaviour on the concrete batch
`[A: good payload, B: undecodable payload]` in parallel mode. -/
theorem queryData_decode_failure_aborts_witness :
    Loki.queryData Fixtures.backend Fixtures.unmarshal Fixtures.reqBad
        Fixtures.opts true Fixtures.sched1 = ([], some "decode fail") :=
  queryData_decode_failure_aborts Fixtures.backend Fixtures.unmarshal
    Fixtures.reqBad Fixtures.opts true Fixtures.sched1
    [⟨"A", "x"⟩] ⟨"B", "bad"⟩ [] "decode fail" rfl
    (fun rq h => ⟨"x", by
      have h2 : rq = ⟨"A", "x"⟩ := by simpa using h
      rw [h2]
      rfl⟩)
    rfl

/-- C7 counterexample: with queries A and B and the shared context cancelled
after only job 0 ran — a schedule `concurrency.ForEachJob` can produce — the
response map has a single entry: B is silently dropped rather than reported
under a distinct `Cancelled` failure kind (no such kind exists in the code),
so the final map does not contain one entry per input query. -/
theorem queryData_cancelled_queries_dropped :
    Fixtures.schedCancel.valid 2 ∧
      (Loki.queryData Fixtures.backend Fixtures.unmarshal Fixtures.reqABgood
          Fixtures.opts true Fixtures.schedCancel).1.length = 1 ∧
      Loki.getResponse (Loki.queryData Fixtures.backend Fixtures.unmarshal
          Fixtures.reqABgood Fixtures.opts true Fixtures.schedCancel).1 "B"
        = none ∧
      (Loki.queryData Fixtures.backend Fixtures.unmarshal Fixtures.reqABgood
          Fixtures.opts true Fixtures.schedCancel).2
        = some "context canceled" := by
  refine ⟨⟨by decide, by decide, fun h => absurd h (by decide)⟩,
    by decide, by decide, by decide⟩

/-- C7 (amended): under cancellation the parallel dispatch inserts entries
only for the queries whose job callback actually ran, in lock-acquisition
order, and returns the context error; a query whose worker never ran gets no
entry at all (there is no `Cancelled` failure kind), so the final map can
contain fewer entries than the input batch. -/
theorem queryData_cancellation_partial_map (b : Backend)
    (u : String → Except String String) (req : QueryDataRequest)
    (opts : ResponseOpts) (sched : Schedule) (queries : List LokiQuery)
    (hp : parseQuery u req = Except.ok queries)
    (hnd : (queries.map (fun q => q.refID)).Nodup)
    (hord : sched.order.Nodup)
    (hbound : ∀ i ∈ sched.order, i < queries.length) :
    (queryData b u req opts true sched).1
        = (sched.executed queries).map
            (fun q => (q.refID, executeQuery b q opts)) ∧
      (queryData b u req opts true sched).2 = sched.ctxErr ∧
      ∀ k, getResponse (queryData b u req opts true sched).1 k ≠ none →
        ∃ q ∈ sched.executed queries, q.refID = k := by
  have h := queryData_par_entries b u req opts sched queries hp hnd hord hbound
  refine ⟨by rw [h], by rw [h], ?_⟩
  intro k hk
  rw [h, getResponse_entries] at hk
  cases hf : (sched.executed queries).find? (fun q => q.refID == k) with
  | none =>
    rw [hf] at hk
    exact absurd rfl hk
  | some a =>
    exact ⟨a, List.mem_of_find?_eq_some hf, by simpa using List.find?_some hf⟩

/-- C7 witness for the amended statement: queries A and B, context cancelled
after job 0. -/
theorem queryData_cancellation_partial_map_witness :
    (Loki.queryData Fixtures.backend Fixtures.unmarshal Fixtures.reqABgood
        Fixtures.opts true Fixtures.schedCancel).1
        = (Fixtures.schedCancel.executed [⟨"A", "x"⟩, ⟨"B", "y"⟩]).map
            (fun q => (q.refID, Loki.executeQuery Fixtures.backend q
              Fixtures.opts)) ∧
      (Loki.queryData Fixtures.backend Fixtures.unmarshal Fixtures.reqABgood
          Fixtures.opts true Fixtures.schedCancel).2
        = Fixtures.schedCancel.ctxErr ∧
      ∀ k, Loki.getResponse (Loki.queryData Fixtures.backend
          Fixtures.unmarshal Fixtures.reqABgood Fixtures.opts true
          Fixtures.schedCancel).1 k ≠ none →
        ∃ q ∈ Fixtures.schedCancel.executed [⟨"A", "x"⟩, ⟨"B", "y"⟩],
          q.refID = k :=
  queryData_cancellation_partial_map Fixtures.backend Fixtures.unmarshal
    Fixtures.reqABgood Fixtures.opts Fixtures.schedCancel
    [⟨"A", "x"⟩, ⟨"B", "y"⟩] rfl (by decide) (by decide) (by decide)

end Loki

namespace Loki

/-- C2: a request whose sub-queries all parse and carry pairwise-distinct
identifiers yields, in either mode and under any valid uncancelled schedule,
a response map whose keys are a permutation of the input identifiers — so
exactly one entry per input query, never zero and never two — with exactly
as many entries as sub-queries. -/
theorem queryData_one_entry_per_refID (b : Backend)
    (u : String → Except String String) (req : QueryDataRequest)
    (opts : ResponseOpts) (runInParallel : Bool) (sched : Schedule)
    (queries : List LokiQuery)
    (hp : parseQuery u req = Except.ok queries)
    (hnd : (req.queries.map (fun rq => rq.refID)).Nodup)
    (hv : sched.valid queries.length) (hc : sched.ctxErr = none) :
    ((queryData b u req opts runInParallel sched).1.map Prod.fst).Perm
        (req.queries.map (fun rq => rq.refID)) ∧
      (queryData b u req opts runInParallel sched).1.length
        = req.queries.length := by
  have hids : queries.map (fun q => q.refID)
      = req.queries.map (fun rq => rq.refID) :=
    parseQueries_refIDs u req.queries queries hp
  have hndq : (queries.map (fun q => q.refID)).Nodup := by
    rw [hids]
    exact hnd
  have hlen : queries.length = req.queries.length := by
    have h2 := congrArg List.length hids
    simpa using h2
  cases runInParallel with
  | false =>
    rw [queryData_seq_entries b u req opts sched queries hp hndq]
    constructor
    · rw [List.map_map]
      rw [show ((Prod.fst ∘ fun q => (q.refID, executeQuery b q opts)) :
          LokiQuery → String) = fun q => q.refID from rfl]
      rw [hids]
    · rw [List.length_map, hlen]
  | true =>
    rw [queryData_par_entries b u req opts sched queries hp hndq
      hv.1 hv.2.1]
    have hperm := executed_perm sched queries hv hc
    constructor
    · rw [List.map_map]
      rw [show ((Prod.fst ∘ fun q => (q.refID, executeQuery b q opts)) :
          LokiQuery → String) = fun q => q.refID from rfl]
      rw [← hids]
      exact hperm.map (fun q => q.refID)
    · rw [List.length_map, hperm.length_eq, hlen]

/-- C2 witness: the two-query batch A, B, parallel mode, insert order
`[1, 0]`. -/
theorem queryData_one_entry_per_refID_witness :
    ((Loki.queryData Fixtures.backend Fixtures.unmarshal Fixtures.reqABgood
        Fixtures.opts true Fixtures.sched10).1.map Prod.fst).Perm
        (Fixtures.reqABgood.queries.map (fun rq => rq.refID)) ∧
      (Loki.queryData Fixtures.backend Fixtures.unmarshal Fixtures.reqABgood
          Fixtures.opts true Fixtures.sched10).1.length
        = Fixtures.reqABgood.queries.length :=
  queryData_one_entry_per_refID Fixtures.backend Fixtures.unmarshal
    Fixtures.reqABgood Fixtures.opts true Fixtures.sched10
    [⟨"A", "x"⟩, ⟨"B", "y"⟩] rfl (by decide)
    ⟨by decide, by decide, fun _ => by decide⟩ rfl

/-- C3 counterexample: with two queries sharing the RefID `X` (a request the
engine dispatches without complaint), the parallel insert order `[1, 0]` — a
valid uncancelled `ForEachJob` schedule — leaves a different entry under `X`
than the sequential run of the very same request, so the two modes do not
produce the same per-key contents for every input. -/
theorem queryData_modes_differ_on_duplicate_refIDs :
    Fixtures.sched10.valid 2 ∧
      Loki.getResponse (Loki.queryData Fixtures.backend Fixtures.unmarshal
          Fixtures.reqXXdistinct Fixtures.opts true Fixtures.sched10).1 "X"
        ≠ Loki.getResponse (Loki.queryData Fixtures.backend
          Fixtures.unmarshal Fixtures.reqXXdistinct Fixtures.opts false
          Fixtures.sched10).1 "X" := by
  refine ⟨⟨by decide, by decide, fun _ => by decide⟩, by decide⟩

/-- C3 (amended): provided the parsed queries carry pairwise-distinct
identifiers, the parallel mode — under any valid uncancelled schedule — and
the sequential mode return response maps that are permutations of each
other, agree on the lookup of every key, and both return no request-level
error. -/
theorem queryData_parallel_sequential_agree (b : Backend)
    (u : String → Except String String) (req : QueryDataRequest)
    (opts : ResponseOpts) (sched : Schedule) (queries : List LokiQuery)
    (hp : parseQuery u req = Except.ok queries)
    (hnd : (queries.map (fun q => q.refID)).Nodup)
    (hv : sched.valid queries.length) (hc : sched.ctxErr = none) :
    ((queryData b u req opts true sched).1).Perm
        ((queryData b u req opts false sched).1) ∧
      (∀ k, getResponse (queryData b u req opts true sched).1 k
          = getResponse (queryData b u req opts false sched).1 k) ∧
      (queryData b u req opts true sched).2
        = (queryData b u req opts false sched).2 := by
  rw [queryData_par_entries b u req opts sched queries hp hnd hv.1 hv.2.1,
    queryData_seq_entries b u req opts sched queries hp hnd]
  have hperm := executed_perm sched queries hv hc
  have hexnd : ((sched.executed queries).map (fun q => q.refID)).Nodup :=
    hnd.perm ((hperm.map (fun q => q.refID)).symm)
  refine ⟨hperm.map _, ?_, by rw [hc]⟩
  intro k
  exact getResponse_entries_perm (fun q => executeQuery b q opts)
    (sched.executed queries) queries k hperm hexnd

/-- C3 witness: the two-query batch A, B, parallel insert order `[1, 0]`
against the sequential run. -/
theorem queryData_parallel_sequential_agree_witness :
    ((Loki.queryData Fixtures.backend Fixtures.unmarshal Fixtures.reqABgood
        Fixtures.opts true Fixtures.sched10).1).Perm
        ((Loki.queryData Fixtures.backend Fixtures.unmarshal
          Fixtures.reqABgood Fixtures.opts false Fixtures.sched10).1) ∧
      (∀ k, Loki.getResponse (Loki.queryData Fixtures.backend
          Fixtures.unmarshal Fixtures.reqABgood Fixtures.opts true
          Fixtures.sched10).1 k
        = Loki.getResponse (Loki.queryData Fixtures.backend
          Fixtures.unmarshal Fixtures.reqABgood Fixtures.opts false
          Fixtures.sched10).1 k) ∧
      (Loki.queryData Fixtures.backend Fixtures.unmarshal Fixtures.reqABgood
          Fixtures.opts true Fixtures.sched10).2
        = (Loki.queryData Fixtures.backend Fixtures.unmarshal
          Fixtures.reqABgood Fixtures.opts false Fixtures.sched10).2 :=
  queryData_parallel_sequential_agree Fixtures.backend Fixtures.unmarshal
    Fixtures.reqABgood Fixtures.opts Fixtures.sched10
    [⟨"A", "x"⟩, ⟨"B", "y"⟩] rfl (by decide)
    ⟨by decide, by decide, fun _ => by decide⟩ rfl

/-- C1 counterexample: in the batch `[X: succeeds, X: backend fails]` the
final entry under the shared identifier `X` is the failure, whereas with the
failing query absent (`[X: succeeds]`) the entry under `X` is a success; so
a backend error can change the outcome recorded for another query of the
batch, contradicting the claim for batches with repeated identifiers. -/
theorem queryData_backendError_not_isolated_on_duplicate_refIDs :
    Loki.getResponse (Loki.queryData Fixtures.backend Fixtures.unmarshal
        Fixtures.reqXdup Fixtures.opts false Fixtures.sched1).1 "X"
      ≠ Loki.getResponse (Loki.queryData Fixtures.backend Fixtures.unmarshal
        Fixtures.reqXonly Fixtures.opts false Fixtures.sched1).1 "X" := by
  decide

/-- C1 (amended): provided the parsed queries carry pairwise-distinct
identifiers, a backend error for the `j`-th query is recorded as a failure
entry under that query's identifier only: the lookup of every other key
agrees with a run of the engine (any mode, any valid uncancelled schedule)
on the batch with the failing query removed, and `queryData` returns no
request-level error. -/
theorem queryData_backendError_isolated (b : Backend)
    (u u2 : String → Except String String)
    (req req2 : QueryDataRequest) (opts : ResponseOpts)
    (mode mode2 : Bool) (sched sched2 : Schedule)
    (queries : List LokiQuery) (j : Nat) (e : String)
    (hp : parseQuery u req = Except.ok queries)
    (hnd : (queries.map (fun q => q.refID)).Nodup)
    (hv : sched.valid queries.length) (hc : sched.ctxErr = none)
    (hj : j < queries.length)
    (hfail : runQuery b queries[j] opts = Except.error e)
    (hp2 : parseQuery u2 req2 = Except.ok (queries.eraseIdx j))
    (hv2 : sched2.valid (queries.eraseIdx j).length)
    (hc2 : sched2.ctxErr = none) :
    getResponse (queryData b u req opts mode sched).1 queries[j].refID
        = some { frames := [], error? := some e } ∧
      (∀ k, k ≠ queries[j].refID →
        getResponse (queryData b u req opts mode sched).1 k
          = getResponse (queryData b u2 req2 opts mode2 sched2).1 k) ∧
      (queryData b u req opts mode sched).2 = none := by
  have hchar : ∀ (mode' : Bool) (u' : String → Except String String)
      (req' : QueryDataRequest) (sched' : Schedule)
      (queries' : List LokiQuery),
      parseQuery u' req' = Except.ok queries' →
      (queries'.map (fun q => q.refID)).Nodup →
      sched'.valid queries'.length → sched'.ctxErr = none →
      ∃ l : List LokiQuery, (queryData b u' req' opts mode' sched').1
            = l.map (fun q => (q.refID, executeQuery b q opts)) ∧
          l.Perm queries' ∧ (queryData b u' req' opts mode' sched').2
            = none := by
    intro mode' u' req' sched' queries' hp' hnd' hv' hc'
    cases mode' with
    | false =>
      rw [queryData_seq_entries b u' req' opts sched' queries' hp' hnd']
      exact ⟨queries', rfl, List.Perm.refl _, rfl⟩
    | true =>
      rw [queryData_par_entries b u' req' opts sched' queries' hp' hnd'
        hv'.1 hv'.2.1]
      exact ⟨sched'.executed queries', rfl,
        executed_perm sched' queries' hv' hc', by rw [hc']⟩
  obtain ⟨l, hl, hlq, herr⟩ := hchar mode u req sched queries hp hnd hv hc
  have hndl : (l.map (fun q => q.refID)).Nodup :=
    hnd.perm ((hlq.map (fun q => q.refID)).symm)
  have hnd2 : ((queries.eraseIdx j).map (fun q => q.refID)).Nodup :=
    List.Nodup.sublist ((List.eraseIdx_sublist queries j).map _) hnd
  obtain ⟨l2, hl2, hlq2, _⟩ :=
    hchar mode2 u2 req2 sched2 (queries.eraseIdx j) hp2 hnd2 hv2 hc2
  have hndl2 : (l2.map (fun q => q.refID)).Nodup :=
    hnd2.perm ((hlq2.map (fun q => q.refID)).symm)
  refine ⟨?_, ?_, herr⟩
  · rw [hl, getResponse_entries_perm (fun q => executeQuery b q opts)
      l queries queries[j].refID hlq hndl, getResponse_entries]
    rw [(find?_refID_eq_some queries queries[j].refID queries[j] hnd).mpr
      ⟨List.getElem_mem hj, rfl⟩]
    show some (executeQuery b queries[j] opts) = _
    unfold executeQuery
    rw [hfail]
  · intro k hk
    rw [hl, hl2,
      getResponse_entries_perm (fun q => executeQuery b q opts)
        l queries k hlq hndl,
      getResponse_entries_perm (fun q => executeQuery b q opts)
        l2 (queries.eraseIdx j) k hlq2 hndl2,
      getResponse_entries, getResponse_entries,
      find?_eraseIdx_of_ne queries j hj hnd k hk]

/-- C1 witness: batch `[A: succeeds, B: backend fails]` in parallel mode
with insert order `[1, 0]`, compared against the sequential run of the
batch without B. -/
theorem queryData_backendError_isolated_witness :
    Loki.getResponse (Loki.queryData Fixtures.backend Fixtures.unmarshal
        Fixtures.reqAB Fixtures.opts true Fixtures.sched10).1 "B"
        = some { frames := [], error? := some "backend down" } ∧
      (∀ k, k ≠ "B" →
        Loki.getResponse (Loki.queryData Fixtures.backend Fixtures.unmarshal
            Fixtures.reqAB Fixtures.opts true Fixtures.sched10).1 k
          = Loki.getResponse (Loki.queryData Fixtures.backend
              Fixtures.unmarshal Fixtures.reqA Fixtures.opts false
              Fixtures.sched1).1 k) ∧
      (Loki.queryData Fixtures.backend Fixtures.unmarshal Fixtures.reqAB
          Fixtures.opts true Fixtures.sched10).2 = none :=
  queryData_backendError_isolated Fixtures.backend Fixtures.unmarshal
    Fixtures.unmarshal Fixtures.reqAB Fixtures.reqA Fixtures.opts
    true false Fixtures.sched10 Fixtures.sched1
    [⟨"A", "x"⟩, ⟨"B", "boom"⟩] 1 "backend down"
    rfl (by decide) ⟨by decide, by decide, fun _ => by decide⟩ rfl
    (by decide) rfl rfl
    ⟨by decide, by decide, fun _ => by decide⟩ rfl

end Loki
